import Mathlib

/-!
Verification of the cdk-nag rule-evaluation engine.

A shallow embedding of the compliance-rule engine: the attribute
resolver, the predicate library (S3 bucket rules and the OpenSearch
VPC-placement rule), the policy/statement matcher behind the
SSL-only-requests rule, and the rule aggregator / tree walker, together
with theorems settling the specification's claims about them.

The OpenSearch VPC-placement predicate is embedded from
`src/rules/opensearch/OpenSearchInVPCOnly.ts`.  The S3 rule predicates,
the attribute resolver and the aggregator are exercised by the
repository's test files but their implementation files are not part of
the excerpt, so they are modelled from the specification text (each such
definition carries a doc comment beginning `Modelled from the spec:`).
-/

namespace CdkNag

/-- The outcome of resolving a possibly-symbolic attribute value:
either a concrete value, an attribute that is simply not set
(`undefined` in the source), or an unresolvable symbolic token
(`UNRESOLVED` in the spec, "treated conservatively as unknown/missing,
never as satisfying a positive predicate"). -/
inductive Resolved (α : Type) where
  | val : α → Resolved α
  | absent : Resolved α
  | unresolved : Resolved α
deriving DecidableEq, Repr

/-- Tri-state rule outcome attached to a (rule, node) pair. -/
inductive RuleResult where
  | compliant
  | nonCompliant
  | notApplicable
deriving DecidableEq, Repr

/-! The OpenSearch VPC-placement rule (from the source)

`src/rules/opensearch/OpenSearchInVPCOnly.ts`:

```
(node: CfnResource): boolean => {
  if (node instanceof LegacyCfnDomain || node instanceof CfnDomain) {
    const vpcOptions = Stack.of(node).resolve(node.vpcOptions);
    if (vpcOptions === undefined) { return false; }
    const subnetIds = Stack.of(node).resolve(vpcOptions.subnetIds);
    if (subnetIds === undefined || subnetIds.length === 0) { return false; }
  }
  return true;
}
```
-/

/-- The resolved `vpcOptions` record of a search domain: its
`subnetIds` field after resolution. -/
structure VpcOptions where
  subnetIds : Resolved (List String)
deriving DecidableEq, Repr

/-- A node as seen by the OpenSearch rule: `isSearchDomain` is the
`instanceof LegacyCfnDomain || instanceof CfnDomain` type test, and
`vpcOptions` is the result of `Stack.of(node).resolve(node.vpcOptions)`. -/
structure OSNode where
  ident : String
  isSearchDomain : Bool
  vpcOptions : Resolved VpcOptions
deriving DecidableEq, Repr

/-- Embedding of the `OpenSearchInVPCOnly` predicate.  An unset
`vpcOptions` (`=== undefined`) fails; an unresolvable `vpcOptions`
token has no `subnetIds` property, so the second resolve yields
`undefined` and the check fails as well; an unset `subnetIds` fails,
and a concretely resolved `subnetIds` fails exactly when empty.  A
`subnetIds` that resolves to an unresolvable token, however, is an
intrinsic object — neither `=== undefined` nor of `length === 0` — so
both guards fall through and the function returns `true`.  A node that
is not a search domain also falls through to `return true`. -/
def OpenSearchInVPCOnly (node : OSNode) : Bool :=
  if node.isSearchDomain then
    match node.vpcOptions with
    | Resolved.val v =>
      match v.subnetIds with
      | Resolved.val ids => !(ids.length == 0)
      | Resolved.absent => false
      | Resolved.unresolved => true
    | _ => false
  else
    true

/-! The S3 bucket rules (modelled from the spec) -/

/-- Modelled from the spec: the `versioningConfiguration` of a bucket
(the implementation file of `S3BucketVersioningEnabled` is not in the
excerpt): a record whose `status` field resolves to a string such as
`"Enabled"` or `"Suspended"`. -/
structure VersioningConfiguration where
  status : Resolved String
deriving DecidableEq, Repr

/-- Modelled from the spec: "Versioning rule: non-compliant unless a
versioning configuration is present AND its status resolves to
`Enabled` (status `Suspended` — or absent — fails)." -/
def S3BucketVersioningEnabled (cfg : Option VersioningConfiguration) : Bool :=
  match cfg with
  | none => false
  | some c => c.status == Resolved.val "Enabled"

/-- Modelled from the spec: the four block-public-access sub-flags of a
bucket (block-policy, block-acls, ignore-acls, restrict-buckets), each
resolving to a boolean. -/
structure PublicAccessBlockConfiguration where
  blockPublicPolicy : Resolved Bool
  blockPublicAcls : Resolved Bool
  ignorePublicAcls : Resolved Bool
  restrictPublicBuckets : Resolved Bool
deriving DecidableEq, Repr

/-- Modelled from the spec: "Public-access-block rule: non-compliant
unless all four block-public-access sub-flags (block-policy,
block-acls, ignore-acls, restrict-buckets) resolve to `true`." -/
def S3BucketLevelPublicAccessProhibited
    (cfg : Option PublicAccessBlockConfiguration) : Bool :=
  match cfg with
  | none => false
  | some c =>
    c.blockPublicPolicy == Resolved.val true &&
    c.blockPublicAcls == Resolved.val true &&
    c.ignorePublicAcls == Resolved.val true &&
    c.restrictPublicBuckets == Resolved.val true

/-- A bucket access-control-list setting: the canned ACL literals the
spec distinguishes (`private`, public read, public read-write), plus a
catch-all for any other canned ACL string. -/
inductive ACL where
  | aclPrivate
  | publicRead
  | publicReadWrite
  | otherAcl (s : String)
deriving DecidableEq, Repr

/-- Whether a canned ACL grants public read access (public read or
public read-write). -/
def aclGrantsPublicRead : ACL → Bool
  | ACL.publicRead => true
  | ACL.publicReadWrite => true
  | _ => false

/-- Whether a canned ACL grants public write access (public
read-write). -/
def aclGrantsPublicWrite : ACL → Bool
  | ACL.publicReadWrite => true
  | _ => false

/-- Modelled from the spec: "Public-read rule: non-compliant if the
resource's access-control-list setting grants public read, UNLESS
block-public-acls is independently `true` (ACL grant is then
superseded) or ignore-public-acls is `true`.  Must special-case the
default literal `private` ACL (never flagged) independent of block
settings."  An ACL that is absent or does not grant public read is not
flagged. -/
def S3BucketPublicReadProhibited (acl : Resolved ACL)
    (cfg : Option PublicAccessBlockConfiguration) : Bool :=
  match acl with
  | Resolved.val a =>
    if aclGrantsPublicRead a then
      match cfg with
      | none => false
      | some c =>
        c.blockPublicAcls == Resolved.val true ||
        c.ignorePublicAcls == Resolved.val true
    else true
  | _ => true

/-- Modelled from the spec: "Public-write rule: non-compliant if the
resource's access-control-list setting grants public read-write,
UNLESS block-public-acls is independently `true` or ignore-public-acls
is `true`"; the literal `private` ACL is never flagged. -/
def S3BucketPublicWriteProhibited (acl : Resolved ACL)
    (cfg : Option PublicAccessBlockConfiguration) : Bool :=
  match acl with
  | Resolved.val a =>
    if aclGrantsPublicWrite a then
      match cfg with
      | none => false
      | some c =>
        c.blockPublicAcls == Resolved.val true ||
        c.ignorePublicAcls == Resolved.val true
    else true
  | _ => true

/-- Modelled from the spec: one entry of a bucket's replication
configuration, whose `status` resolves to `"Enabled"` or
`"Disabled"`. -/
structure ReplicationRule where
  status : Resolved String
deriving DecidableEq, Repr

/-- Modelled from the spec: a bucket's replication configuration — a
list of replication rules. -/
structure ReplicationConfiguration where
  rules : List ReplicationRule
deriving DecidableEq, Repr

/-- Modelled from the spec: "Replication rule: non-compliant unless a
replication configuration exists with at least one rule whose status
resolves to `Enabled` (a rule with status `Disabled` does not
count)." -/
def S3BucketReplicationEnabled (cfg : Option ReplicationConfiguration) : Bool :=
  match cfg with
  | none => false
  | some c => c.rules.any (fun r => r.status == Resolved.val "Enabled")

/-! The Policy/Statement Matcher and the SSL-only-requests rule
(modelled from the spec) -/

/-- A policy statement's effect. -/
inductive Effect where
  | allow
  | deny
deriving DecidableEq, Repr

/-- A principal descriptor: either a wildcard/any-principal (the
source's `AnyPrincipal` / `StarPrincipal`) or some named principal. -/
inductive Principal where
  | anyPrincipal
  | namedPrincipal (s : String)
deriving DecidableEq, Repr

/-- A condition's expected value: a string or a boolean (the spec
counts both the string `"false"` and the boolean `false` as a
secure-transport-false condition). -/
inductive CondValue where
  | condStr (s : String)
  | condBool (b : Bool)
deriving DecidableEq, Repr

/-- One entry of a statement's condition mapping:
condition-operator → condition-key → expected value. -/
structure Condition where
  operator : String
  key : String
  value : CondValue
deriving DecidableEq, Repr

/-- A policy statement: effect, principal descriptors, action patterns,
conditions, and resource ARN patterns. -/
structure PolicyStatement where
  effect : Effect
  principals : List Principal
  actions : List String
  conditions : List Condition
  resources : List String
deriving DecidableEq, Repr

/-- Modelled from the spec: a boolean condition on the secure-transport
key evaluated as `false` — string `"false"` or boolean `false` both
count. -/
def secureTransportFalse (c : Condition) : Bool :=
  c.operator == "Bool" && c.key == "aws:SecureTransport" &&
    (c.value == CondValue.condStr "false" || c.value == CondValue.condBool false)

/-- The ARN of a bucket with the given name. -/
def bucketArn (name : String) : String := "arn:aws:s3:::" ++ name

/-- Modelled from the spec: statement coverage — the resource-pattern
set covers BOTH the bucket's bare ARN and the wildcard pattern
"everything under the bucket" (the ARN ending in `/*` whose prefix
exactly equals the bucket's ARN plus `/`).  A pattern whose prefix
merely starts with the bucket name but diverges does not help. -/
def coversBucket (resources : List String) (arn : String) : Bool :=
  resources.contains arn && resources.contains (arn ++ "/*")

/-- Modelled from the spec: the statement filter of the
SSL-only-requests matcher — effect DENY, an any-principal, a
secure-transport-false boolean condition, an action set including
`s3:*` or `*` (a narrower action such as `s3:getObject` alone does not
satisfy the rule), and resource patterns covering both bucket ARNs. -/
def statementQualifies (arn : String) (s : PolicyStatement) : Bool :=
  s.effect == Effect.deny &&
  s.principals.any (fun p => p == Principal.anyPrincipal) &&
  s.conditions.any secureTransportFalse &&
  s.actions.any (fun a => a == "s3:*" || a == "*") &&
  coversBucket s.resources arn

/-- Modelled from the spec: a bucket-policy resource — its `bucket`
field after resolution (a reference to a bucket not present in the
tree stays unresolved and the policy then applies to no bucket), and
the statements of its policy document. -/
structure CfnBucketPolicy where
  bucket : Resolved String
  statements : List PolicyStatement
deriving DecidableEq, Repr

/-- Modelled from the spec: the policy documents attached to a bucket —
the statements of every policy resource whose `bucket` field resolves
to this bucket's name. -/
def attachedStatements (policies : List CfnBucketPolicy) (name : String) :
    List PolicyStatement :=
  (policies.filter (fun p => p.bucket == Resolved.val name)).flatMap
    (fun p => p.statements)

/-- Modelled from the spec: the SSL-only-requests rule — a bucket is
compliant iff at least one attached statement passes the filter and
covers both of the bucket's ARNs; a bucket with no attached policy at
all is non-compliant. -/
def S3BucketSSLRequestsOnly (name : String)
    (policies : List CfnBucketPolicy) : Bool :=
  (attachedStatements policies name).any (statementQualifies (bucketArn name))

/-! The Attribute Resolver (modelled from the spec) -/

/-- Modelled from the spec: a raw attribute value in a resource node's
property bag — a literal (string or boolean) or a `Reference`, the
symbolic placeholder "the value of attribute A on node N". -/
inductive AttrValue where
  | str (s : String)
  | boolV (b : Bool)
  | reference (nodeId : String) (attr : String)
deriving DecidableEq, Repr

/-- Modelled from the spec: a resource node — a stable identity string
unique within the tree, a type discriminator, and a mapping of
property name → value. -/
structure RNode where
  ident : String
  nodeType : String
  attrs : List (String × AttrValue)
deriving DecidableEq, Repr

/-- A resource tree: the list of its nodes. -/
abbrev RTree := List RNode

/-- Whole-tree node-by-identity lookup. -/
def findNode (tree : RTree) (ident : String) : Option RNode :=
  tree.find? (fun n => n.ident == ident)

/-- Look up an attribute in a node's property bag. -/
def lookupAttr (n : RNode) (a : String) : Option AttrValue :=
  (n.attrs.find? (fun q => q.1 == a)).map Prod.snd

/-- The (node identity, attribute name) pairs present in a tree; the
resolution path only ever grows by pairs from this finite set, which
bounds the recursion of the resolver. -/
def treePairs : RTree → List (String × String)
  | [] => []
  | n :: rest => n.attrs.map (fun q => (n.ident, q.1)) ++ treePairs rest

theorem mem_treePairs_of_mem {tree : RTree} {n : RNode} {q : String × AttrValue}
    (hn : n ∈ tree) (hq : q ∈ n.attrs) : (n.ident, q.1) ∈ treePairs tree := by
  induction tree with
  | nil => cases hn
  | cons m rest ih =>
    rcases List.mem_cons.mp hn with h | h
    · subst h
      exact List.mem_append_left _ (List.mem_map_of_mem _ hq)
    · exact List.mem_append_right _ (ih h)

theorem findNode_mem_ident {tree : RTree} {ident : String} {n : RNode}
    (h : findNode tree ident = some n) : n ∈ tree ∧ n.ident = ident := by
  refine ⟨List.mem_of_find?_eq_some h, ?_⟩
  have := List.find?_some h
  simpa using this

theorem lookupAttr_mem {n : RNode} {a : String} {v : AttrValue}
    (h : lookupAttr n a = some v) : (a, v) ∈ n.attrs := by
  unfold lookupAttr at h
  rcases Option.map_eq_some'.mp h with ⟨q, hq, hv⟩
  have hmem := List.mem_of_find?_eq_some hq
  have hkey : q.1 = a := by
    have := List.find?_some hq
    simpa using this
  have : q = (a, v) := by
    cases q with
    | mk q1 q2 =>
      simp only at hkey hv
      rw [hkey, hv]
  rwa [this] at hmem

theorem length_filter_lt_of_imp {α : Type} (l : List α) (p q : α → Bool)
    (himp : ∀ a, q a = true → p a = true) (x : α) (hx : x ∈ l)
    (hpx : p x = true) (hqx : q x = false) :
    (l.filter q).length < (l.filter p).length := by
  induction l with
  | nil => cases hx
  | cons y ys ih =>
    have hsub : List.Sublist (ys.filter q) (ys.filter p) :=
      List.monotone_filter_right ys himp
    have hle : (ys.filter q).length ≤ (ys.filter p).length := hsub.length_le
    rcases List.mem_cons.mp hx with h | h
    · subst h
      rw [List.filter_cons, List.filter_cons, hpx, hqx]
      simpa using Nat.lt_succ_of_le hle
    · rw [List.filter_cons, List.filter_cons]
      cases hq : q y with
      | false =>
        cases hp : p y with
        | false => simpa using ih h
        | true => simpa using Nat.lt_succ_of_lt (ih h)
      | true =>
        rw [himp y hq]
        simpa using Nat.succ_lt_succ (ih h)

/-- Modelled from the spec: the attribute resolver.  Given a node
identity and attribute name, return the concrete value, following
intra-tree references, with cycle protection: if resolution revisits a
(node, attribute) pair already on the current resolution path, it
returns `unresolved` rather than looping.  A reference to a node not
present in the tree resolves to `unresolved`; a missing attribute is
treated as absent. -/
def resolveAt (tree : RTree) (ident a : String)
    (path : List (String × String)) : Resolved AttrValue :=
  if hmem : (ident, a) ∈ path then Resolved.unresolved
  else
    match hn : findNode tree ident with
    | none => Resolved.unresolved
    | some n =>
      match ha : lookupAttr n a with
      | none => Resolved.absent
      | some (AttrValue.str s) => Resolved.val (AttrValue.str s)
      | some (AttrValue.boolV b) => Resolved.val (AttrValue.boolV b)
      | some (AttrValue.reference id2 a2) =>
        resolveAt tree id2 a2 ((ident, a) :: path)
termination_by
  ((treePairs tree).filter (fun q => decide (q ∉ path))).length
decreasing_by
  have hpair : (ident, a) ∈ treePairs tree := by
    obtain ⟨hmemt, hid⟩ := findNode_mem_ident hn
    have := mem_treePairs_of_mem hmemt (lookupAttr_mem ha)
    rwa [hid] at this
  exact length_filter_lt_of_imp (treePairs tree)
    (fun q => decide (q ∉ path))
    (fun q => decide (q ∉ (ident, a) :: path))
    (by
      intro q hq
      simp only [decide_eq_true_eq] at hq ⊢
      intro hcontra
      exact hq (List.mem_cons_of_mem _ hcontra))
    (ident, a) hpair
    (by simpa using hmem)
    (by simp)

/-- Resolve an attribute of a node starting from an empty resolution
path (the cycle-detection state is scoped to a single resolution call). -/
def resolveTop (tree : RTree) (ident a : String) : Resolved AttrValue :=
  resolveAt tree ident a []

/-- The resolved versioning status of a node in a tree: its `status`
attribute resolved through references; a value of the wrong shape is
treated as absent (spec error-handling case b). -/
def versioningStatusOf (tree : RTree) (ident : String) : Resolved String :=
  match resolveTop tree ident "status" with
  | Resolved.val (AttrValue.str s) => Resolved.val s
  | Resolved.val _ => Resolved.absent
  | Resolved.absent => Resolved.absent
  | Resolved.unresolved => Resolved.unresolved

/-- The versioning predicate applied through the resolver: a dependent
predicate that needs the concrete resolved status to confirm
compliance. -/
def treeBucketVersioningEnabled (tree : RTree) (ident : String) : Bool :=
  S3BucketVersioningEnabled (some ⟨versioningStatusOf tree ident⟩)

/-- A tree whose single node's `status` attribute is a Reference to
itself: the smallest Reference chain that cycles back to itself. -/
def selfCycleTree : RTree :=
  [⟨"b", "bucket", [("status", AttrValue.reference "b" "status")]⟩]

/-- A tree with two nodes whose `status` attributes reference each
other: a two-step Reference cycle. -/
def twoCycleTree : RTree :=
  [⟨"x", "bucket", [("status", AttrValue.reference "y" "status")]⟩,
   ⟨"y", "bucket", [("status", AttrValue.reference "x" "status")]⟩]

/-! The Rule Aggregator and Tree Walker (modelled from the spec) -/

/-- A Finding: rule id, severity level, human explanation, and the
originating node's identity — the engine's only externally visible
artifact, produced from NON_COMPLIANT results. -/
structure Finding where
  ruleId : String
  level : String
  explanation : String
  nodeId : String
deriving DecidableEq, Repr

/-- Modelled from the spec: an explicit registration record for one
rule — `\x7bidentifier, applicableTypes, predicateFn, explanation\x7d` —
`applicable` is the type test the rule declares, `predicate` the pure
compliance check. -/
structure NagRule (α : Type) where
  ruleId : String
  level : String
  explanation : String
  applicable : α → Bool
  predicate : α → Bool

/-- Modelled from the spec: the tri-state outcome of one rule on one
node — NOT_APPLICABLE (never COMPLIANT) when the node's type doesn't
match the rule's subject type, otherwise COMPLIANT or NON_COMPLIANT by
the predicate. -/
def ruleResult {α : Type} (r : NagRule α) (n : α) : RuleResult :=
  if r.applicable n then
    if r.predicate n then RuleResult.compliant else RuleResult.nonCompliant
  else
    RuleResult.notApplicable

/-- Modelled from the spec: the findings the aggregator emits for one
node — one Finding per rule, in registration order, exactly where the
rule's result is NON_COMPLIANT. -/
def findingsFor {α : Type} (identOf : α → String) (rules : List (NagRule α))
    (n : α) : List Finding :=
  (rules.filter (fun r => ruleResult r n == RuleResult.nonCompliant)).map
    (fun r => ⟨r.ruleId, r.level, r.explanation, identOf n⟩)

/-- Modelled from the spec: the tree walker — visits each node exactly
once, in tree order, appending each node's findings to the running
accumulator. -/
def visitAll {α : Type} (identOf : α → String) (rules : List (NagRule α))
    (tree : List α) (acc : List Finding) : List Finding :=
  match tree with
  | [] => acc
  | n :: rest => visitAll identOf rules rest (acc ++ findingsFor identOf rules n)

/-- Modelled from the spec: one full synthesis pass over a tree,
starting from an empty accumulator. -/
def runPass {α : Type} (identOf : α → String) (rules : List (NagRule α))
    (tree : List α) : List Finding :=
  visitAll identOf rules tree []

/-- The walker is an accumulator homomorphism: visiting from any
starting accumulator appends exactly the findings of a fresh pass. -/
theorem visitAll_eq_append {α : Type} (identOf : α → String)
    (rules : List (NagRule α)) (tree : List α) (acc : List Finding) :
    visitAll identOf rules tree acc = acc ++ runPass identOf rules tree := by
  induction tree generalizing acc with
  | nil => simp [visitAll, runPass]
  | cons n rest ih =>
    rw [visitAll, runPass, visitAll, ih, ih ([] ++ findingsFor identOf rules n)]
    simp

/-- The registration record of the OpenSearch VPC-placement rule: it
applies to search-domain nodes and runs the source predicate. -/
def openSearchRule : NagRule OSNode :=
  { ruleId := "OpenSearchInVPCOnly"
    level := "ERROR"
    explanation := "OpenSearch Service domains are within VPCs"
    applicable := fun n => n.isSearchDomain
    predicate := OpenSearchInVPCOnly }

/-! Theorems settling the claims -/

/-- C7: For every search-domain node, the VPC-placement predicate
returns false when the VPC options are absent (or unresolvable) or the
resolved subnet list is absent or empty, and true when the resolved
subnet list is non-empty. -/
theorem C7_openSearchInVPCOnly_subnets (i : String) :
    OpenSearchInVPCOnly ⟨i, true, Resolved.absent⟩ = false ∧
    OpenSearchInVPCOnly ⟨i, true, Resolved.unresolved⟩ = false ∧
    OpenSearchInVPCOnly ⟨i, true, Resolved.val ⟨Resolved.absent⟩⟩ = false ∧
    OpenSearchInVPCOnly ⟨i, true, Resolved.val ⟨Resolved.val []⟩⟩ = false ∧
    (∀ ids : List String,
      OpenSearchInVPCOnly ⟨i, true, Resolved.val ⟨Resolved.val ids⟩⟩ = true ↔
        ids ≠ []) := by
  refine ⟨rfl, rfl, rfl, rfl, ?_⟩
  intro ids
  simp [OpenSearchInVPCOnly]

/-- C3: The versioning rule is compliant exactly when a versioning
configuration is present with status resolving to `"Enabled"`; an
absent configuration or a `"Suspended"` status is non-compliant. -/
theorem C3_versioning_enabled_iff :
    (∀ cfg, S3BucketVersioningEnabled cfg = true ↔
      cfg = some ⟨Resolved.val "Enabled"⟩) ∧
    S3BucketVersioningEnabled none = false ∧
    S3BucketVersioningEnabled (some ⟨Resolved.val "Suspended"⟩) = false ∧
    S3BucketVersioningEnabled (some ⟨Resolved.unresolved⟩) = false ∧
    S3BucketVersioningEnabled (some ⟨Resolved.val "Enabled"⟩) = true := by
  refine ⟨?_, by decide, by decide, by decide, by decide⟩
  intro cfg
  match cfg with
  | none => simp [S3BucketVersioningEnabled]
  | some c =>
    simp only [S3BucketVersioningEnabled, beq_iff_eq, Option.some.injEq]
    constructor
    · intro h
      cases c
      simp_all
    · intro h
      rw [h]

/-- C4: The public-access-block rule is compliant iff all four
block-public-access sub-flags resolve to true; an absent configuration
or any single flag not resolving to true is non-compliant. -/
theorem C4_public_access_block_iff :
    (∀ cfg, S3BucketLevelPublicAccessProhibited cfg = true ↔
      ∃ c, cfg = some c ∧
        c.blockPublicPolicy = Resolved.val true ∧
        c.blockPublicAcls = Resolved.val true ∧
        c.ignorePublicAcls = Resolved.val true ∧
        c.restrictPublicBuckets = Resolved.val true) ∧
    S3BucketLevelPublicAccessProhibited none = false ∧
    S3BucketLevelPublicAccessProhibited
      (some ⟨Resolved.val false, Resolved.val true, Resolved.val true,
        Resolved.val true⟩) = false ∧
    S3BucketLevelPublicAccessProhibited
      (some ⟨Resolved.val true, Resolved.val false, Resolved.val true,
        Resolved.val true⟩) = false ∧
    S3BucketLevelPublicAccessProhibited
      (some ⟨Resolved.val true, Resolved.val true, Resolved.val false,
        Resolved.val true⟩) = false ∧
    S3BucketLevelPublicAccessProhibited
      (some ⟨Resolved.val true, Resolved.val true, Resolved.val true,
        Resolved.val false⟩) = false ∧
    S3BucketLevelPublicAccessProhibited
      (some ⟨Resolved.val true, Resolved.val true, Resolved.val true,
        Resolved.val true⟩) = true := by
  refine ⟨?_, by decide, by decide, by decide, by decide, by decide, by decide⟩
  intro cfg
  match cfg with
  | none => simp [S3BucketLevelPublicAccessProhibited]
  | some c =>
    simp [S3BucketLevelPublicAccessProhibited, Bool.and_eq_true, beq_iff_eq,
      and_assoc]

/-- C5: The public-read (and public-write) rule flags a bucket whose
ACL grants public read (or read-write) unless block-public-acls or
ignore-public-acls resolves to true (either block setting supersedes
the grant); a bucket whose ACL is the literal private ACL is never
flagged, regardless of the block-public-access settings. -/
theorem C5_public_read_write_acl :
    (∀ cfg, S3BucketPublicReadProhibited (Resolved.val ACL.publicRead) cfg = true ↔
      ∃ c, cfg = some c ∧ (c.blockPublicAcls = Resolved.val true ∨
        c.ignorePublicAcls = Resolved.val true)) ∧
    (∀ cfg, S3BucketPublicReadProhibited (Resolved.val ACL.publicReadWrite) cfg = true ↔
      ∃ c, cfg = some c ∧ (c.blockPublicAcls = Resolved.val true ∨
        c.ignorePublicAcls = Resolved.val true)) ∧
    (∀ cfg, S3BucketPublicWriteProhibited (Resolved.val ACL.publicReadWrite) cfg = true ↔
      ∃ c, cfg = some c ∧ (c.blockPublicAcls = Resolved.val true ∨
        c.ignorePublicAcls = Resolved.val true)) ∧
    (∀ cfg, S3BucketPublicReadProhibited (Resolved.val ACL.aclPrivate) cfg = true) ∧
    (∀ cfg, S3BucketPublicWriteProhibited (Resolved.val ACL.aclPrivate) cfg = true) ∧
    (∀ cfg, S3BucketPublicWriteProhibited (Resolved.val ACL.publicRead) cfg = true) := by
  refine ⟨?_, ?_, ?_, ?_, ?_, ?_⟩ <;> intro cfg <;>
    match cfg with
    | none =>
      simp [S3BucketPublicReadProhibited, S3BucketPublicWriteProhibited,
        aclGrantsPublicRead, aclGrantsPublicWrite]
    | some c =>
      simp [S3BucketPublicReadProhibited, S3BucketPublicWriteProhibited,
        aclGrantsPublicRead, aclGrantsPublicWrite, beq_iff_eq]

/-- C6: The replication rule is compliant iff a replication
configuration exists containing at least one rule whose status
resolves to `"Enabled"`; no configuration, or only `"Disabled"` rules,
is non-compliant, and one enabled rule suffices regardless of other
disabled entries. -/
theorem C6_replication_enabled_iff :
    (∀ cfg, S3BucketReplicationEnabled cfg = true ↔
      ∃ c, cfg = some c ∧ ∃ r ∈ c.rules, r.status = Resolved.val "Enabled") ∧
    S3BucketReplicationEnabled none = false ∧
    S3BucketReplicationEnabled (some ⟨[⟨Resolved.val "Disabled"⟩]⟩) = false ∧
    S3BucketReplicationEnabled
      (some ⟨[⟨Resolved.val "Disabled"⟩, ⟨Resolved.val "Enabled"⟩,
        ⟨Resolved.val "Disabled"⟩]⟩) = true := by
  refine ⟨?_, by decide, by decide, by decide⟩
  intro cfg
  match cfg with
  | none => simp [S3BucketReplicationEnabled]
  | some c =>
    simp [S3BucketReplicationEnabled, List.any_eq_true, beq_iff_eq]

/-- C2: For every node whose type does not match a rule's subject
type, the rule's result is NOT_APPLICABLE (never COMPLIANT) and no
Finding is emitted for that (node, rule) pair; in particular the
OpenSearch VPC rule on a node that is not a search domain. -/
theorem C2_not_applicable_no_finding {α : Type} (identOf : α → String)
    (r : NagRule α) (n : α) (h : r.applicable n = false) :
    (ruleResult r n = RuleResult.notApplicable ∧
      ruleResult r n ≠ RuleResult.compliant ∧
      findingsFor identOf [r] n = []) ∧
    (∀ (i : String) (opts : Resolved VpcOptions),
      ruleResult openSearchRule ⟨i, false, opts⟩ = RuleResult.notApplicable ∧
      findingsFor OSNode.ident [openSearchRule] ⟨i, false, opts⟩ = []) := by
  constructor
  · have hres : ruleResult r n = RuleResult.notApplicable := by
      simp [ruleResult, h]
    refine ⟨hres, by simp [hres], ?_⟩
    simp [findingsFor, hres]
  · intro i opts
    have hres : ruleResult openSearchRule ⟨i, false, opts⟩ =
        RuleResult.notApplicable := by
      simp [ruleResult, openSearchRule]
    exact ⟨hres, by simp [findingsFor, hres]⟩

/-- Witness for C2 at a concrete non-domain node. -/
theorem C2_not_applicable_no_finding_witness :
    (openSearchRule.applicable ⟨"rNode", false, Resolved.absent⟩ = false) ∧
    ruleResult openSearchRule ⟨"rNode", false, Resolved.absent⟩ =
      RuleResult.notApplicable ∧
    findingsFor OSNode.ident [openSearchRule]
      (⟨"rNode", false, Resolved.absent⟩ : OSNode) = [] :=
  ⟨by decide,
    (C2_not_applicable_no_finding OSNode.ident openSearchRule
      ⟨"rNode", false, Resolved.absent⟩ (by decide)).1.1,
    (C2_not_applicable_no_finding OSNode.ident openSearchRule
      ⟨"rNode", false, Resolved.absent⟩ (by decide)).1.2.2⟩

/-- A qualifying DENY statement for bucket `foo`, with the given
action list and resource-pattern list; used to exercise the
SSL-only-requests rule on the concrete inputs of the test suite. -/
def sslStmt (actions resources : List String) : PolicyStatement :=
  { effect := Effect.deny
    principals := [Principal.anyPrincipal]
    actions := actions
    conditions := [⟨"Bool", "aws:SecureTransport", CondValue.condStr "false"⟩]
    resources := resources }

/-- C1: The SSL-only-requests rule is compliant iff some attached
policy statement has effect DENY, an any-principal, a boolean
secure-transport condition equal to false (string or boolean), an
action set containing `s3:*` or `*`, and resource patterns covering
both the bucket's bare ARN and the ARN of everything under it; a
bucket with no attached policy, a statement with only a narrower
action such as `s3:getObject`, or a wildcard pattern whose prefix
diverges from the bucket ARN, is non-compliant. -/
theorem C1_ssl_requests_only_iff :
    (∀ (name : String) (policies : List CfnBucketPolicy),
      S3BucketSSLRequestsOnly name policies = true ↔
        ∃ s ∈ attachedStatements policies name,
          s.effect = Effect.deny ∧
          Principal.anyPrincipal ∈ s.principals ∧
          (∃ c ∈ s.conditions, c.operator = "Bool" ∧
            c.key = "aws:SecureTransport" ∧
            (c.value = CondValue.condStr "false" ∨
              c.value = CondValue.condBool false)) ∧
          ("s3:*" ∈ s.actions ∨ "*" ∈ s.actions) ∧
          bucketArn name ∈ s.resources ∧
          (bucketArn name ++ "/*") ∈ s.resources) ∧
    S3BucketSSLRequestsOnly "foo" [] = false ∧
    S3BucketSSLRequestsOnly "foo"
      [⟨Resolved.val "foo", [sslStmt ["s3:getObject"]
        ["arn:aws:s3:::foo", "arn:aws:s3:::foo/*"]]⟩] = false ∧
    S3BucketSSLRequestsOnly "foo"
      [⟨Resolved.val "foo", [sslStmt ["s3:*"]
        ["arn:aws:s3:::foo", "arn:aws:s3:::food/*"]]⟩] = false ∧
    S3BucketSSLRequestsOnly "foo"
      [⟨Resolved.val "foo", [sslStmt ["s3:*"]
        ["arn:aws:s3:::foo", "arn:aws:s3:::foo/s/*"]]⟩] = false ∧
    S3BucketSSLRequestsOnly "foo"
      [⟨Resolved.val "foo", [sslStmt ["s3:*"]
        ["arn:aws:s3:::foo/*"]]⟩] = false ∧
    S3BucketSSLRequestsOnly "food"
      [⟨Resolved.val "foo", [sslStmt ["s3:*"]
        ["arn:aws:s3:::foo", "arn:aws:s3:::foo/*"]]⟩] = false ∧
    S3BucketSSLRequestsOnly "foo"
      [⟨Resolved.val "foo", [sslStmt ["s3:getObject", "s3:*"]
        ["arn:aws:s3:::foo", "arn:aws:s3:::foo/*"]]⟩] = true ∧
    S3BucketSSLRequestsOnly "foo"
      [⟨Resolved.val "foo", [sslStmt ["*", "s3:getObject"]
        ["arn:aws:s3:::foo", "arn:aws:s3:::foo/*",
          "arn:aws:s3:::foo/path/*"]]⟩] = true := by
  refine ⟨?_, by decide, by decide, by decide, by decide, by decide, by decide,
    by decide, by decide⟩
  intro name policies
  simp only [S3BucketSSLRequestsOnly, List.any_eq_true]
  constructor
  · rintro ⟨s, hs, hq⟩
    refine ⟨s, hs, ?_⟩
    simp only [statementQualifies, coversBucket, secureTransportFalse,
      Bool.and_eq_true, List.any_eq_true, beq_iff_eq, Bool.or_eq_true,
      List.contains_iff_exists_mem_beq] at hq
    obtain ⟨⟨⟨⟨heff, hprin⟩, hcond⟩, hact⟩, hres1, hres2⟩ := hq
    refine ⟨heff, ?_, ?_, ?_, ?_, ?_⟩
    · obtain ⟨p, hp, hpe⟩ := hprin
      rwa [hpe] at hp
    · obtain ⟨c, hc, hcv⟩ := hcond
      obtain ⟨⟨hop, hkey⟩, hval⟩ := hcv
      exact ⟨c, hc, hop, hkey, hval⟩
    · obtain ⟨a, ha, hav⟩ := hact
      rcases hav with h | h
      · exact Or.inl (h ▸ ha)
      · exact Or.inr (h ▸ ha)
    · obtain ⟨x, hx, hxe⟩ := hres1
      have hxeq : bucketArn name = x := by simpa using hxe
      rwa [← hxeq] at hx
    · obtain ⟨x, hx, hxe⟩ := hres2
      have hxeq : bucketArn name ++ "/*" = x := by simpa using hxe
      rwa [← hxeq] at hx
  · rintro ⟨s, hs, heff, hprin, ⟨c, hc, hop, hkey, hval⟩, hact, hres1, hres2⟩
    refine ⟨s, hs, ?_⟩
    simp only [statementQualifies, coversBucket, secureTransportFalse,
      Bool.and_eq_true, List.any_eq_true, beq_iff_eq, Bool.or_eq_true,
      List.contains_iff_exists_mem_beq]
    refine ⟨⟨⟨⟨heff, ⟨Principal.anyPrincipal, hprin, by simp⟩⟩,
      ⟨c, hc, ?_⟩⟩, ?_⟩, ⟨bucketArn name, hres1, by simp⟩,
      ⟨bucketArn name ++ "/*", hres2, by simp⟩⟩
    · simp [hop, hkey]
      rcases hval with h | h <;> simp [h]
    · rcases hact with h | h
      · exact ⟨"s3:*", h, by simp⟩
      · exact ⟨"*", h, by simp⟩

/-- C8 counterexample: the claim fails on the source OpenSearch
predicate.  On a search domain whose VPC options are concrete but
whose subnet list resolves to an unresolvable token, the resolved
token is an intrinsic object — neither `undefined` nor of length zero
— so both guards of `OpenSearchInVPCOnly.ts` fall through and the
predicate returns compliant (fail-open), although the attribute it
needs to confirm compliance is UNRESOLVED. -/
theorem C8_unresolved_fail_open_counterexample :
    OpenSearchInVPCOnly ⟨"rDomain", true, Resolved.val ⟨Resolved.unresolved⟩⟩ =
      true := rfl

/-- C8 (amended): UNRESOLVED never satisfies a positive compliance
check in the spec-modelled predicates — versioning,
public-access-block, replication and policy attachment — and the
OpenSearch predicate fails closed on an unresolvable `vpcOptions`
attribute; but an unresolvable subnet list inside concrete VPC options
passes the OpenSearch rule (fail-open).  All predicates are total
functions, so none raises an exception. -/
theorem C8_unresolved_fails_closed_amended :
    (∀ i : String, OpenSearchInVPCOnly ⟨i, true, Resolved.unresolved⟩ = false) ∧
    (∀ i : String,
      OpenSearchInVPCOnly ⟨i, true, Resolved.val ⟨Resolved.unresolved⟩⟩ = true) ∧
    S3BucketVersioningEnabled (some ⟨Resolved.unresolved⟩) = false ∧
    (∀ b2 b3 b4, S3BucketLevelPublicAccessProhibited
      (some ⟨Resolved.unresolved, b2, b3, b4⟩) = false) ∧
    (∀ b1 b3 b4, S3BucketLevelPublicAccessProhibited
      (some ⟨b1, Resolved.unresolved, b3, b4⟩) = false) ∧
    (∀ b1 b2 b4, S3BucketLevelPublicAccessProhibited
      (some ⟨b1, b2, Resolved.unresolved, b4⟩) = false) ∧
    (∀ b1 b2 b3, S3BucketLevelPublicAccessProhibited
      (some ⟨b1, b2, b3, Resolved.unresolved⟩) = false) ∧
    (∀ k : ℕ, S3BucketReplicationEnabled
      (some ⟨List.replicate k ⟨Resolved.unresolved⟩⟩) = false) ∧
    (∀ (name : String) (stmts : List PolicyStatement)
      (policies : List CfnBucketPolicy),
      attachedStatements (⟨Resolved.unresolved, stmts⟩ :: policies) name =
        attachedStatements policies name) := by
  refine ⟨fun i => rfl, fun i => rfl, by decide, ?_, ?_, ?_, ?_, ?_, ?_⟩
  · intro b2 b3 b4
    simp [S3BucketLevelPublicAccessProhibited]
  · intro b1 b3 b4
    simp [S3BucketLevelPublicAccessProhibited]
  · intro b1 b2 b4
    simp [S3BucketLevelPublicAccessProhibited]
  · intro b1 b2 b3
    simp [S3BucketLevelPublicAccessProhibited]
  · intro k
    simp [S3BucketReplicationEnabled, List.any_eq_true]
  · intro name stmts policies
    simp [attachedStatements, List.filter_cons]

/-- C10: Evaluating the same tree twice in succession yields identical
Finding sequences: a fresh second pass produces exactly the first
pass's findings, and a second walk started on top of the first pass's
accumulator appends an identical copy of that sequence. -/
theorem C10_pass_idempotent {α : Type} (identOf : α → String)
    (rules : List (NagRule α)) (tree : List α) :
    runPass identOf rules tree = runPass identOf rules tree ∧
    visitAll identOf rules tree (runPass identOf rules tree) =
      runPass identOf rules tree ++ runPass identOf rules tree :=
  ⟨rfl, visitAll_eq_append identOf rules tree (runPass identOf rules tree)⟩

/-- Resolution returns `unresolved` as soon as it revisits a
(node, attribute) pair already on the current resolution path. -/
theorem resolveAt_revisit (tree : RTree) (id a : String)
    (path : List (String × String)) (h : (id, a) ∈ path) :
    resolveAt tree id a path = Resolved.unresolved := by
  unfold resolveAt
  simp [h]

/-- C9: Attribute resolution of a Reference chain that cycles back to
itself terminates (every resolver function here is total) and returns
UNRESOLVED — it returns UNRESOLVED upon revisiting a (node, attribute)
pair already on the current resolution path — and the dependent
versioning predicate then reports non-compliant, on both a
self-referential node and a two-node Reference cycle. -/
theorem C9_cycle_resolves_unresolved :
    (∀ (tree : RTree) (id a : String)
      (pre post : List (String × String)),
      resolveAt tree id a (pre ++ (id, a) :: post) = Resolved.unresolved) ∧
    resolveTop selfCycleTree "b" "status" = Resolved.unresolved ∧
    treeBucketVersioningEnabled selfCycleTree "b" = false ∧
    resolveTop twoCycleTree "x" "status" = Resolved.unresolved ∧
    resolveTop twoCycleTree "y" "status" = Resolved.unresolved ∧
    treeBucketVersioningEnabled twoCycleTree "x" = false := by
  have hself : resolveTop selfCycleTree "b" "status" = Resolved.unresolved := by
    unfold resolveTop
    unfold resolveAt
    simp [findNode, lookupAttr, selfCycleTree, List.find?]
    exact resolveAt_revisit _ _ _ _ (by simp)
  have hx : resolveTop twoCycleTree "x" "status" = Resolved.unresolved := by
    unfold resolveTop
    unfold resolveAt
    simp [findNode, lookupAttr, twoCycleTree, List.find?]
    unfold resolveAt
    simp [findNode, lookupAttr, List.find?]
    exact resolveAt_revisit _ _ _ _ (by simp)
  have hy : resolveTop twoCycleTree "y" "status" = Resolved.unresolved := by
    unfold resolveTop
    unfold resolveAt
    simp [findNode, lookupAttr, twoCycleTree, List.find?]
    unfold resolveAt
    simp [findNode, lookupAttr, List.find?]
    exact resolveAt_revisit _ _ _ _ (by simp)
  refine ⟨?_, hself, ?_, hx, hy, ?_⟩
  · intro tree id a pre post
    exact resolveAt_revisit _ _ _ _ (by simp)
  · simp [treeBucketVersioningEnabled, versioningStatusOf, hself,
      S3BucketVersioningEnabled]
  · simp [treeBucketVersioningEnabled, versioningStatusOf, hx,
      S3BucketVersioningEnabled]

end CdkNag
